import Mathlib

/-!
Verification of the protoframe repository's process-invocation core.

`src/ffmpeg.py` defines class `FFmpeg` with fields `exe`, `inputs`,
`arguments`, `outputs`, mutators `input`/`arg`/`output`, and a method
`run` that builds the argv list and calls
`subprocess.run(command, capture_output=True, text=True, check=True)`.
`src/main.py` defines `FFmpegConfig` with `is_valid` (a suffix check on
the input and output paths) among a large amount of Qt UI code.

Python values appearing in the argv list are modelled as `Option String`:
`some s` is a string (or path rendered as a string) and `none` is the
Python `None` value, which `FFmpeg.arg` can place into `arguments` and
which `run` then appends to the command list unchanged (whereupon
`subprocess.run` raises `TypeError`, since `None` is not a valid argv
element).
-/

/-- A token of the command list built by `FFmpeg.run`: a Python string
(`some`) or the Python `None` value (`none`). -/
abbrev PyTok := Option String

/-- The `FFmpeg` object of `src/ffmpeg.py`: `exe` (already rendered by
`str(...)` as `run` does), the ordered `inputs`, the ordered `arguments`
(pairs appended by `arg(arg_type, value)`, the value possibly `None`),
and the ordered `outputs`. -/
structure FFmpeg where
  exe : String
  inputs : List String
  arguments : List (String × Option String)
  outputs : List String
deriving DecidableEq, Repr

/-- The command list built by `FFmpeg.run` (src/ffmpeg.py lines 22-29):
starts from `[str(self.exe)]`, then for each input appends `'-i'` and the
input, then for each argument appends `a[0]` and `a[1]`, then for each
output appends it.  Transcribed append-by-append from the Python loops. -/
def buildCommand (m : FFmpeg) : List PyTok :=
  let c0 : List PyTok := [some m.exe]
  let c1 := m.inputs.foldl (fun cmd n => (cmd ++ [some "-i"]) ++ [some n]) c0
  let c2 := m.arguments.foldl (fun cmd a => (cmd ++ [some a.1]) ++ [a.2]) c1
  let c3 := m.outputs.foldl (fun cmd o => cmd ++ [some o]) c2
  c3

/-- The observable behaviour of the spawned child process: its exit code
and what it wrote to the two captured streams. -/
structure ProcBehavior where
  exitCode : Int
  stdout : String
  stderr : String
deriving DecidableEq, Repr

/-- The `subprocess.CompletedProcess` value returned by
`subprocess.run(..., capture_output=True, text=True)` on success. -/
structure RunResult where
  args : List PyTok
  returncode : Int
  stdout : String
  stderr : String
deriving DecidableEq, Repr

/-- The exceptions `FFmpeg.run` can raise: `TypeError` from
`subprocess.run` when the command list contains `None`, and
`subprocess.CalledProcessError` (from `check=True`) when the child exits
with a nonzero code. -/
inductive RunError where
  | typeError : RunError
  | calledProcessError (returncode : Int) (cmd : List PyTok) (stdout stderr : String) : RunError
deriving DecidableEq, Repr

/-- `FFmpeg.run` (src/ffmpeg.py lines 21-31).  The method builds the
command list from `self`, then calls `subprocess.run` with
`capture_output=True, text=True, check=True`: a `None` element raises
`TypeError`; otherwise the call blocks until the child exits, and
`check=True` raises `CalledProcessError` on a nonzero exit code, else the
`CompletedProcess` is returned.  The method assigns nothing to `self`, so
the returned object state is the argument state unchanged. -/
def run (m : FFmpeg) (b : ProcBehavior) : FFmpeg × Except RunError RunResult :=
  let command := buildCommand m
  if command.any (fun t => t.isNone) then
    (m, Except.error RunError.typeError)
  else if b.exitCode ≠ 0 then
    (m, Except.error (RunError.calledProcessError b.exitCode command b.stdout b.stderr))
  else
    (m, Except.ok ⟨command, b.exitCode, b.stdout, b.stderr⟩)

/-- Folding appends over a list is appending the flat map. -/
theorem foldl_append_flatMap {α τ : Type} (f : α → List τ) :
    ∀ (l : List α) (c : List τ),
      l.foldl (fun cmd x => cmd ++ f x) c = c ++ l.flatMap f := by
  intro l
  induction l with
  | nil => intro c; simp
  | cons a t ih => intro c; simp [List.foldl_cons, ih]

/-- Flat-mapping a singleton-producing function is mapping it. -/
theorem flatMap_single_map {α τ : Type} (f : α → τ) :
    ∀ l : List α, (l.flatMap fun x => [f x]) = l.map f := by
  intro l
  induction l with
  | nil => rfl
  | cons a t ih => simp [List.flatMap_cons, ih]

/-- The command list built by `run`, in closed form: the executable token
followed by the input pairs, the argument pairs, and the outputs. -/
theorem buildCommand_eq (m : FFmpeg) :
    buildCommand m =
      some m.exe ::
        ((m.inputs.flatMap fun n => [some "-i", some n]) ++
         ((m.arguments.flatMap fun a => [some a.1, a.2]) ++
          m.outputs.map some)) := by
  have h1 : ∀ (l : List String) (c : List PyTok),
      l.foldl (fun cmd n => (cmd ++ [some "-i"]) ++ [some n]) c =
        c ++ l.flatMap (fun n => [some "-i", some n]) := by
    intro l c
    have := foldl_append_flatMap (fun n : String => [some "-i", some n]) l c
    simpa [List.append_assoc] using this
  have h2 : ∀ (l : List (String × Option String)) (c : List PyTok),
      l.foldl (fun cmd a => (cmd ++ [some a.1]) ++ [a.2]) c =
        c ++ l.flatMap (fun a => [some a.1, a.2]) := by
    intro l c
    have := foldl_append_flatMap (fun a : String × Option String => [some a.1, a.2]) l c
    simpa [List.append_assoc] using this
  have h3 : ∀ (l : List String) (c : List PyTok),
      l.foldl (fun cmd o => cmd ++ [some o]) c = c ++ l.map some := by
    intro l c
    have := foldl_append_flatMap (fun o : String => [some o]) l c
    simpa [flatMap_single_map] using this
  simp only [buildCommand]
  rw [h1, h2, h3]
  simp [List.append_assoc]

/-- C1: for every model, the command list built by `FFmpeg.run` is
exactly the executable token, then for each input in original order the
`-i` marker followed by the input locator, then every registered option
in insertion order as its name token followed by its value token, then
each output destination in original order — nothing else and in no other
order. -/
theorem run_token_order (m : FFmpeg) :
    buildCommand m =
      some m.exe ::
        ((m.inputs.flatMap fun n => [some "-i", some n]) ++
         ((m.arguments.flatMap fun a => [some a.1, a.2]) ++
          m.outputs.map some)) :=
  buildCommand_eq m

/-- The flat map emitting two tokens per element has twice its length. -/
theorem flatMap_pair_length {α : Type} (g h : α → PyTok) :
    ∀ l : List α, (l.flatMap fun x => [g x, h x]).length = 2 * l.length := by
  intro l
  induction l with
  | nil => rfl
  | cons a t ih => simp [List.flatMap_cons, ih]; ring

/-- C10: the command vector built by `run` has `str(exe)` as its first
element and length exactly `1 + 2*len(inputs) + 2*len(arguments) +
len(outputs)`: two tokens per input, two per registered option whatever
its value, one per output. -/
theorem run_command_head_length (m : FFmpeg) :
    (buildCommand m).head? = some (some m.exe) ∧
    (buildCommand m).length =
      1 + 2 * m.inputs.length + 2 * m.arguments.length + m.outputs.length := by
  rw [buildCommand_eq]
  refine ⟨rfl, ?_⟩
  simp [List.length_append,
    flatMap_pair_length (fun _ : String => some "-i") (fun n : String => some n),
    flatMap_pair_length (fun a : String × Option String => some a.1) (fun a => a.2)]
  ring

/-- C9: `run` never mutates the model it linearizes: whatever the process
behaviour and whether `run` returns or raises, the object's `exe`,
`inputs`, `arguments` and `outputs` after the call are exactly what they
were before. -/
theorem run_preserves_model (m : FFmpeg) (b : ProcBehavior) :
    (run m b).1.exe = m.exe ∧
    (run m b).1.inputs = m.inputs ∧
    (run m b).1.arguments = m.arguments ∧
    (run m b).1.outputs = m.outputs := by
  have h : (run m b).1 = m := by
    simp only [run]
    split
    · rfl
    · split
      · rfl
      · rfl
  rw [h]
  exact ⟨rfl, rfl, rfl, rfl⟩

/-- C2 counterexample: on a concrete model, a child exiting with code 1
makes `run` raise `subprocess.CalledProcessError` out of the call
(`check=True` on src/ffmpeg.py line 31); no `Failed` event exists — `run`
publishes no events at all. -/
theorem run_nonzero_exit_raises :
    (run ⟨"ffmpeg", ["in.mp4"], [], ["out.mp4"]⟩ ⟨1, "", "boom"⟩).2 =
      Except.error (RunError.calledProcessError 1
        [some "ffmpeg", some "-i", some "in.mp4", some "out.mp4"] "" "boom") := by
  rfl

/-- C2 amended: for every model whose command list contains no `None`
token, a nonzero child exit code is surfaced as a `CalledProcessError`
exception raised out of `run`, carrying the exit code, the command and
the captured streams — not as a `Failed` event (the code has no event
mechanism). -/
theorem run_nonzero_exit_calledProcessError (m : FFmpeg) (b : ProcBehavior)
    (hn : (buildCommand m).any (fun t => t.isNone) = false)
    (hc : b.exitCode ≠ 0) :
    (run m b).2 =
      Except.error (RunError.calledProcessError b.exitCode (buildCommand m)
        b.stdout b.stderr) := by
  simp [run, hn, hc]

/-- C2 amended witness at a concrete model and exit code 2. -/
theorem run_nonzero_exit_calledProcessError_witness :
    (run ⟨"ffmpeg", ["a.mp4"], [("-y", some "")], ["b.mp4"]⟩ ⟨2, "o", "e"⟩).2 =
      Except.error (RunError.calledProcessError 2
        [some "ffmpeg", some "-i", some "a.mp4", some "-y", some "", some "b.mp4"]
        "o" "e") := by
  have h := run_nonzero_exit_calledProcessError
    ⟨"ffmpeg", ["a.mp4"], [("-y", some "")], ["b.mp4"]⟩ ⟨2, "o", "e"⟩
    (by decide) (by decide)
  simpa using h

/-- C3 counterexample: registering the option `-an` with no value (the
`None` sentinel) makes the command list contain the `None` token right
after the flag token — the value slot is emitted, contrary to the claim
that only the flag token appears. -/
theorem arg_none_value_token_emitted :
    buildCommand ⟨"ffmpeg", [], [("-an", none)], []⟩ =
      [some "ffmpeg", some "-an", none] := by
  rfl

/-- C3 amended: an option registered with the no-value sentinel still
contributes its value slot: the `None` token is emitted into the command
list after the flag, and consequently `run` always raises `TypeError`
from `subprocess.run`, since `None` is not a valid argv element. -/
theorem arg_none_value_two_tokens_typeError (m : FFmpeg) (b : ProcBehavior)
    (name : String) (hmem : (name, (none : Option String)) ∈ m.arguments) :
    (none : PyTok) ∈ buildCommand m ∧
    (run m b).2 = Except.error RunError.typeError := by
  have hmem2 : (none : PyTok) ∈ buildCommand m := by
    rw [buildCommand_eq]
    refine List.mem_cons_of_mem _ (List.mem_append_right _ (List.mem_append_left _ ?_))
    exact List.mem_flatMap.mpr ⟨(name, none), hmem, by simp⟩
  refine ⟨hmem2, ?_⟩
  have hany : (buildCommand m).any (fun t => t.isNone) = true :=
    List.any_eq_true.mpr ⟨none, hmem2, rfl⟩
  simp only [run, hany, if_true, if_pos]

/-- C3 amended witness: concrete model carrying `('-an', None)`. -/
theorem arg_none_value_two_tokens_typeError_witness :
    (none : PyTok) ∈ buildCommand ⟨"ffmpeg", ["i.mp4"], [("-an", none)], ["o.mp4"]⟩ ∧
    (run ⟨"ffmpeg", ["i.mp4"], [("-an", none)], ["o.mp4"]⟩ ⟨0, "", ""⟩).2 =
      Except.error RunError.typeError :=
  arg_none_value_two_tokens_typeError
    ⟨"ffmpeg", ["i.mp4"], [("-an", none)], ["o.mp4"]⟩ ⟨0, "", ""⟩
    "-an" (by decide)

/-- C4 counterexample: `run`'s result observably depends on the child's
final exit status (success for exit 0, failure for exit 1, on the same
model), so `run` cannot have returned to its caller at spawn time — it
blocks until the child process finishes; nothing is concurrent. -/
theorem run_result_depends_on_exit :
    (run ⟨"ffmpeg", ["in.mp4"], [], ["out.mp4"]⟩ ⟨0, "", ""⟩).2.isOk = true ∧
    (run ⟨"ffmpeg", ["in.mp4"], [], ["out.mp4"]⟩ ⟨1, "", ""⟩).2.isOk = false :=
  ⟨rfl, rfl⟩

/-- C4 amended: `run` blocks until the child process exits and its result
is a total function of the child's final behaviour: for every model with
a `None`-free command list, exit code 0 returns the `CompletedProcess`
with the full captured streams, and a nonzero exit raises
`CalledProcessError`; no draining or event publication happens
concurrently with the caller. -/
theorem run_returns_completed_process (m : FFmpeg) (b : ProcBehavior)
    (hn : (buildCommand m).any (fun t => t.isNone) = false) :
    (b.exitCode = 0 ∧
       (run m b).2 = Except.ok ⟨buildCommand m, b.exitCode, b.stdout, b.stderr⟩) ∨
    (b.exitCode ≠ 0 ∧
       (run m b).2 = Except.error (RunError.calledProcessError b.exitCode
         (buildCommand m) b.stdout b.stderr)) := by
  by_cases hc : b.exitCode = 0
  · left
    refine ⟨hc, ?_⟩
    simp only [run, hn, Bool.false_eq_true, if_false, hc]
    simp
  · right
    refine ⟨hc, ?_⟩
    simp [run, hn, hc]

/-- C4 amended witness at a concrete model whose child exits cleanly. -/
theorem run_returns_completed_process_witness :
    ((0 : Int) = 0 ∧
       (run ⟨"ffmpeg", ["in.mp4"], [], ["out.mp4"]⟩ ⟨0, "so", "se"⟩).2 =
         Except.ok ⟨[some "ffmpeg", some "-i", some "in.mp4", some "out.mp4"],
           0, "so", "se"⟩) ∨
    ((0 : Int) ≠ 0 ∧
       (run ⟨"ffmpeg", ["in.mp4"], [], ["out.mp4"]⟩ ⟨0, "so", "se"⟩).2 =
         Except.error (RunError.calledProcessError 0
           [some "ffmpeg", some "-i", some "in.mp4", some "out.mp4"] "so" "se")) := by
  have h := run_returns_completed_process
    ⟨"ffmpeg", ["in.mp4"], [], ["out.mp4"]⟩ ⟨0, "so", "se"⟩ (by decide)
  simpa using h

/-- Split a character list at every occurrence of `sep` (the pieces, in
order, with separators removed; one more piece than separators). -/
def splitListOn (sep : Char) : List Char → List (List Char)
  | [] => [[]]
  | c :: rest =>
    let r := splitListOn sep rest
    if c = sep then [] :: r
    else
      match r with
      | [] => [[c]]
      | h :: t => (c :: h) :: t

/-- The final path component, as `pathlib` computes `Path(...).name` for
POSIX-style paths: the last nonempty `/`-separated piece. -/
def lastComponent (cs : List Char) : List Char :=
  ((splitListOn '/' cs).filter (fun p => p ≠ [])).getLastD []

/-- The extension of a file name, as `pathlib` computes `.suffix`: from
the last dot of the name, provided that dot is neither the first nor the
last character.  Phrased over the dot-separated pieces: nonempty exactly
when there are at least two pieces, the last piece is nonempty, and the
name is not just a leading dot followed by one piece. -/
def suffixOfName (name : List Char) : List Char :=
  let parts := splitListOn '.' name
  if parts.length ≥ 2 then
    let lastPart := parts.getLastD []
    if lastPart = [] then []
    else if parts.length = 2 ∧ parts.headD [] = [] then []
    else '.' :: lastPart
  else []

/-- `Path(p).suffix` on a POSIX-style path string. -/
def pathSuffix (p : String) : String :=
  ⟨suffixOfName (lastComponent p.data)⟩

/-- The `FFmpegConfig` object of `src/main.py`: a single input path, the
global options, the per-output options (both mappings from option name to
optional value, insertion-ordered), and a single output path.  Paths are
modelled as their POSIX string rendering. -/
structure FFmpegConfig where
  input : String
  globals : List (String × Option String)
  output_options : List (String × Option String)
  output : String
deriving DecidableEq, Repr

/-- `FFmpegConfig.is_valid` (src/main.py lines 41-49): returns `False`
when the input path's suffix or the output path's suffix is empty, else
`True`. -/
def is_valid (c : FFmpegConfig) : Bool :=
  if pathSuffix c.input = "" ∨ pathSuffix c.output = "" then false else true

/-- The validity predicate as the claim words it: the model has at least
one input and at least one output with a non-empty destination
(`FFmpegConfig` always carries exactly one input field and one output
field, so the predicate reduces to both paths being non-empty). -/
def claimValid (c : FFmpegConfig) : Bool :=
  decide (c.input ≠ "") && decide (c.output ≠ "")

/-- C6 counterexample: the config `input='in.mp4'`, `output='out'` has an
input and a non-empty destination, so the claim's predicate accepts it,
but `is_valid` returns `False` (no output suffix) — `is_valid` does not
decide the claimed predicate; and `FFmpeg.run` itself silently accepts a
model with no inputs and no outputs at all instead of rejecting it. -/
theorem is_valid_not_destination_predicate :
    claimValid ⟨"in.mp4", [], [], "out"⟩ = true ∧
    is_valid ⟨"in.mp4", [], [], "out"⟩ = false ∧
    (run ⟨"ffmpeg", [], [], []⟩ ⟨0, "", ""⟩).2 =
      Except.ok ⟨[some "ffmpeg"], 0, "", ""⟩ := by
  refine ⟨rfl, ?_, rfl⟩
  decide

/-- A string whose `pathSuffix` is nonempty is itself nonempty. -/
theorem pathSuffix_ne_empty (p : String) (h : pathSuffix p ≠ "") : p ≠ "" := by
  intro hp
  apply h
  rw [hp]
  rfl

/-- C6 amended: `is_valid` decides that both the input path and the
output path have a non-empty suffix (a `pathlib` extension) — a strictly
stronger predicate than "non-empty destination": whenever `is_valid`
accepts, both paths are non-empty, and in particular a model lacking an
input or a destination is rejected, but so is any model whose paths lack
an extension; `FFmpeg.run` itself performs no validity check. -/
theorem is_valid_decides_suffix_nonempty (c : FFmpegConfig) :
    (is_valid c = true ↔ (pathSuffix c.input ≠ "" ∧ pathSuffix c.output ≠ "")) ∧
    (is_valid c = true → c.input ≠ "" ∧ c.output ≠ "") := by
  have hiff : is_valid c = true ↔
      (pathSuffix c.input ≠ "" ∧ pathSuffix c.output ≠ "") := by
    unfold is_valid
    by_cases h : pathSuffix c.input = "" ∨ pathSuffix c.output = ""
    · simp [h]
      tauto
    · simp [h]
      tauto
  refine ⟨hiff, fun hv => ?_⟩
  obtain ⟨hi, ho⟩ := hiff.mp hv
  exact ⟨pathSuffix_ne_empty _ hi, pathSuffix_ne_empty _ ho⟩

/-- C6 amended witness: a fully extensioned config is accepted, and
acceptance yields non-empty paths. -/
theorem is_valid_decides_suffix_nonempty_witness :
    (is_valid ⟨"a.mp4", [], [], "b.gif"⟩ = true ↔
      (pathSuffix "a.mp4" ≠ "" ∧ pathSuffix "b.gif" ≠ "")) ∧
    ("a.mp4" : String) ≠ "" ∧ ("b.gif" : String) ≠ "" :=
  ⟨(is_valid_decides_suffix_nonempty ⟨"a.mp4", [], [], "b.gif"⟩).1,
   (is_valid_decides_suffix_nonempty ⟨"a.mp4", [], [], "b.gif"⟩).2 (by decide)⟩

/-- Remove the blanks that immediately follow a `=` sign, so that
`key=  value` reads as one `key=value` token (the diagnostic format pads
values with spaces after the equals sign). -/
def skipEqSpaces : Bool → List Char → List Char
  | _, [] => []
  | afterEq, c :: rest =>
    if afterEq ∧ c = ' ' then skipEqSpaces true rest
    else c :: skipEqSpaces (c = '=') rest

/-- Split a character list at every character satisfying `p`. -/
def splitOnPred (p : Char → Bool) : List Char → List (List Char)
  | [] => [[]]
  | c :: rest =>
    let r := splitOnPred p rest
    if p c then [] :: r
    else
      match r with
      | [] => [[c]]
      | h :: t => (c :: h) :: t

/-- The whitespace-separated tokens of a diagnostic line, after value
padding is removed; empty tokens are dropped. -/
def lineTokens (s : String) : List (List Char) :=
  (splitOnPred (fun c => c = ' ' ∨ c = '\t') (skipEqSpaces false s.data)).filter
    (fun t => t ≠ [])

/-- Split a token at its first `=` sign into key and value, if any. -/
def splitFirstEq : List Char → Option (List Char × List Char)
  | [] => none
  | c :: rest =>
    if c = '=' then some ([], rest)
    else (splitFirstEq rest).map (fun pr => (c :: pr.1, pr.2))

/-- The `key=value` tokens of a diagnostic line, in order. -/
def kvTokens (s : String) : List (List Char × List Char) :=
  (lineTokens s).filterMap splitFirstEq

/-- The progress keys the diagnostic format carries: frame count, encode
fps, emitted size, elapsed media time, bitrate, speed multiplier. -/
def knownKeys : List (List Char) :=
  ["frame".data, "fps".data, "size".data, "time".data, "bitrate".data, "speed".data]

/-- Modelled from the spec: whether a diagnostic line matches the
`key=value` progress shape — the repository contains no progress parser
(src/ffmpeg.py publishes no events and src/main.py only registers a
`progress` callback on a parser that is not in the repository), so the
shape test follows spec section 4.2: some whitespace-separated
`key=value` token with a known progress key is present. -/
def matchesShape (s : String) : Bool :=
  (kvTokens s).any (fun kv => knownKeys.contains kv.1)

/-- The value of the first `key=value` token with the given key. -/
def fieldValue (key : List Char) (s : String) : Option (List Char) :=
  ((kvTokens s).find? (fun kv => kv.1 == key)).map Prod.snd

/-- An exact decimal number: `mantissa / 10 ^ exp`.  Keeps parsing and
equality kernel-computable without floating point. -/
structure Dec where
  mantissa : Int
  exp : Nat
deriving DecidableEq, Repr

/-- Parse a nonempty all-digit character list as a natural number. -/
def digitsToNat? (cs : List Char) : Option Nat :=
  if cs ≠ [] ∧ cs.all Char.isDigit then
    some (cs.foldl (fun acc c => acc * 10 + (c.toNat - 48)) 0)
  else none

/-- Parse an optionally signed decimal numeral (`123`, `-1.0`, `1049.6`)
exactly; anything else is a numeric parse failure. -/
def parseDecL (cs : List Char) : Option Dec :=
  let signed : Bool × List Char :=
    match cs with
    | '-' :: rest => (true, rest)
    | _ => (false, cs)
  match splitListOn '.' signed.2 with
  | [ip] =>
    (digitsToNat? ip).map (fun n => ⟨if signed.1 then -(n : Int) else (n : Int), 0⟩)
  | [ip, fp] =>
    match digitsToNat? ip, digitsToNat? fp with
    | some ni, some nf =>
      let mag : Int := (ni : Int) * (10 : Int) ^ fp.length + (nf : Int)
      some ⟨if signed.1 then -mag else mag, fp.length⟩
    | _, _ => none
  | _ => none

/-- Parse the elapsed media time `HH:MM:SS.fraction` into a duration in
seconds, exactly. -/
def parseTimeL (cs : List Char) : Option Dec :=
  match splitListOn ':' cs with
  | [hp, mp, sp] =>
    match digitsToNat? hp, digitsToNat? mp, parseDecL sp with
    | some hn, some mn, some sd =>
      some ⟨sd.mantissa + ((3600 * hn + 60 * mn : Nat) : Int) * (10 : Int) ^ sd.exp, sd.exp⟩
    | _, _, _ => none
  | _ => none

/-- Whether `cs` ends with the character list `suf`. -/
def endsWithL (suf cs : List Char) : Bool :=
  suf.reverse.isPrefixOf cs.reverse

/-- Drop a trailing unit marker if present. -/
def dropSuffixL (suf cs : List Char) : List Char :=
  if endsWithL suf cs then cs.take (cs.length - suf.length) else cs

/-- Parse an emitted-size value such as `512kB` into bytes. -/
def sizeOfValue (v : List Char) : Option Dec :=
  if endsWithL "kB".data v then
    (parseDecL (v.take (v.length - 2))).map (fun d => ⟨d.mantissa * 1024, d.exp⟩)
  else parseDecL v

/-- Parse a bitrate value such as `1049.6kbits/s`, in kbit/s. -/
def bitrateOfValue (v : List Char) : Option Dec :=
  parseDecL (dropSuffixL "kbits/s".data v)

/-- Parse a speed multiplier value such as `1.2x`. -/
def speedOfValue (v : List Char) : Option Dec :=
  parseDecL (dropSuffixL "x".data v)

/-- The structured fields of a progress sample; every field is optional,
absent when its key is missing from the line or its value fails to parse
numerically. -/
structure StructuredSample where
  frame : Option Nat
  fps : Option Dec
  sizeBytes : Option Dec
  elapsed : Option Dec
  bitrate : Option Dec
  speed : Option Dec
deriving DecidableEq, Repr

/-- The result of parsing one diagnostic line. -/
inductive ProgressSample where
  | unstructured (raw : String) : ProgressSample
  | structured (sample : StructuredSample) : ProgressSample
deriving DecidableEq, Repr

/-- Modelled from the spec: `parseLine` — the repository contains no
progress parser, so this follows spec section 4.2 verbatim: a line
matching the `key=value` progress shape yields a `Structured` sample
whose fields are the independently parsed values of whichever keys are
present (a numeric parse failure degrades that field to absent);
any other line yields `Unstructured` with the raw text. -/
def parseLine (s : String) : ProgressSample :=
  if matchesShape s then
    ProgressSample.structured
      ⟨(fieldValue "frame".data s).bind digitsToNat?,
       (fieldValue "fps".data s).bind parseDecL,
       (fieldValue "size".data s).bind sizeOfValue,
       (fieldValue "time".data s).bind parseTimeL,
       (fieldValue "bitrate".data s).bind bitrateOfValue,
       (fieldValue "speed".data s).bind speedOfValue⟩
  else ProgressSample.unstructured s

/-- C7: `parseLine` is total — every input string yields a sample, the
unstructured one carrying exactly the input text when the line does not
match the progress shape, a structured one when it does; on the spec's
progress line every field present is extracted exactly, on its diagnostic
line the raw text is returned, and fields absent from the text (or
failing numeric parse, like `fps=abc`) are absent in the result. -/
theorem parseLine_total_and_exact :
    (∀ s : String,
       parseLine s = ProgressSample.unstructured s ∨
       ∃ st, parseLine s = ProgressSample.structured st) ∧
    (∀ s : String, matchesShape s = false → parseLine s = ProgressSample.unstructured s) ∧
    (∀ s : String, matchesShape s = true → ∃ st, parseLine s = ProgressSample.structured st) ∧
    parseLine "frame=  120 fps=30 q=-1.0 size=   512kB time=00:00:04.00 bitrate= 1049.6kbits/s speed=1.2x" =
      ProgressSample.structured
        ⟨some 120, some ⟨30, 0⟩, some ⟨524288, 0⟩, some ⟨400, 2⟩,
         some ⟨10496, 1⟩, some ⟨12, 1⟩⟩ ∧
    parseLine "Unknown encoder 'xyz'" =
      ProgressSample.unstructured "Unknown encoder 'xyz'" ∧
    parseLine "frame=7 fps=abc" =
      ProgressSample.structured ⟨some 7, none, none, none, none, none⟩ := by
  refine ⟨?_, ?_, ?_, by rfl, by rfl, by rfl⟩
  · intro s
    by_cases h : matchesShape s = true
    · right
      exact ⟨_, by unfold parseLine; rw [if_pos h]⟩
    · left
      unfold parseLine
      simp [h]
  · intro s h
    unfold parseLine
    simp [h]
  · intro s h
    exact ⟨_, by unfold parseLine; rw [if_pos h]⟩

/-- C7 witness: the totality implications applied at concrete lines. -/
theorem parseLine_total_and_exact_witness :
    parseLine "hello world" = ProgressSample.unstructured "hello world" ∧
    ∃ st, parseLine "frame=3" = ProgressSample.structured st :=
  ⟨parseLine_total_and_exact.2.1 "hello world" (by rfl),
   parseLine_total_and_exact.2.2.1 "frame=3" (by rfl)⟩

/-- Modelled from the spec: the events of section 3 — the repository has
no event type (src/main.py registers callbacks for `start`, `stderr`,
`progress`, `error`, `completed`, `terminated` events on an `FFmpeg`
object that defines none of them, and src/ffmpeg.py publishes nothing),
so the tagged event value follows the spec: `Started{argv}`,
`DiagnosticLine{text}`, `Progress{sample}`, `Failed{reason}`,
`Completed`, `Terminated`. -/
inductive Event where
  | started (argv : List PyTok) : Event
  | diagnosticLine (text : String) : Event
  | progress (sample : StructuredSample) : Event
  | failed (reason : Int) : Event
  | completed : Event
  | terminated : Event
deriving DecidableEq, Repr

/-- Whether an event is terminal for a run. -/
def isTerminal : Event → Bool
  | Event.failed _ => true
  | Event.completed => true
  | Event.terminated => true
  | _ => false

/-- Modelled from the spec: the supervisor states of section 4.4 — the
repository has no state machine (src/ffmpeg.py has no state field at
all; src/main.py pokes `_executed`/`_terminated` flags that src/ffmpeg.py
never defines), so the states follow the spec: `Idle`, `Running`,
`Terminating`. -/
inductive SupState where
  | idle : SupState
  | running : SupState
  | terminating : SupState
deriving DecidableEq, Repr

/-- The synchronous state errors of spec section 7. -/
inductive SupError where
  | alreadyRunning : SupError
  | notRunning : SupError
deriving DecidableEq, Repr

/-- Modelled from the spec: a supervisor instance — its lifecycle state
and the events published so far. -/
structure Supervisor where
  state : SupState
  events : List Event
deriving DecidableEq, Repr

/-- Modelled from the spec: `execute` of section 4.4 — absent from the
repository (src/main.py awaits `self.ffmpeg.execute()`, which
src/ffmpeg.py does not define).  Valid only from `Idle`, where it
snapshots and linearizes the model, transitions to `Running` and
publishes `Started{argv}`; from `Running` or `Terminating` it fails
synchronously with `AlreadyRunning`, leaving state and events alone. -/
def executeS (sup : Supervisor) (m : FFmpeg) : Supervisor × Option SupError :=
  match sup.state with
  | SupState.idle =>
    (⟨SupState.running, sup.events ++ [Event.started (buildCommand m)]⟩, none)
  | SupState.running => (sup, some SupError.alreadyRunning)
  | SupState.terminating => (sup, some SupError.alreadyRunning)

/-- Modelled from the spec: `terminate` of section 4.4 — absent from the
repository (src/main.py calls `self.ffmpeg.terminate()`, which
src/ffmpeg.py does not define).  From `Idle` it fails synchronously with
`NotRunning`; from `Running` it transitions to `Terminating`; from
`Terminating` it is an idempotent no-op. -/
def terminateS (sup : Supervisor) : Supervisor × Option SupError :=
  match sup.state with
  | SupState.idle => (sup, some SupError.notRunning)
  | SupState.running => (⟨SupState.terminating, sup.events⟩, none)
  | SupState.terminating => (sup, none)

/-- C5: calling `execute` while a run is in progress (`Running` or
`Terminating`) fails synchronously with `AlreadyRunning`, and calling
`terminate` while `Idle` fails synchronously with `NotRunning`; in both
cases the supervisor — its state and its published events — is returned
unchanged, so the in-flight run is unaffected. -/
theorem supervisor_state_guards (sup : Supervisor) (m : FFmpeg) :
    ((sup.state = SupState.running ∨ sup.state = SupState.terminating) →
       executeS sup m = (sup, some SupError.alreadyRunning)) ∧
    (sup.state = SupState.idle →
       terminateS sup = (sup, some SupError.notRunning)) := by
  obtain ⟨st, evs⟩ := sup
  cases st with
  | idle =>
    refine ⟨fun h => ?_, fun _ => rfl⟩
    rcases h with h | h <;> exact absurd h (by simp)
  | running =>
    refine ⟨fun _ => rfl, fun h => ?_⟩
    exact absurd h (by simp)
  | terminating =>
    refine ⟨fun _ => rfl, fun h => ?_⟩
    exact absurd h (by simp)

/-- C5 witness: the guards applied to concrete supervisors mid-run and
idle. -/
theorem supervisor_state_guards_witness :
    executeS ⟨SupState.running, [Event.started [some "ffmpeg"]]⟩ ⟨"ffmpeg", [], [], []⟩ =
      (⟨SupState.running, [Event.started [some "ffmpeg"]]⟩, some SupError.alreadyRunning) ∧
    terminateS ⟨SupState.idle, []⟩ = (⟨SupState.idle, []⟩, some SupError.notRunning) :=
  ⟨(supervisor_state_guards ⟨SupState.running, [Event.started [some "ffmpeg"]]⟩
      ⟨"ffmpeg", [], [], []⟩).1 (Or.inl rfl),
   (supervisor_state_guards ⟨SupState.idle, []⟩ ⟨"ffmpeg", [], [], []⟩).2 rfl⟩

/-- Modelled from the spec: how a run ends — the child exits with a code,
or the run was cancelled (state `Terminating` when the child exited). -/
inductive RunOutcome where
  | exited (code : Int) : RunOutcome
  | cancelled : RunOutcome
deriving DecidableEq, Repr

/-- Modelled from the spec: the terminal event of a run (section 4.4) —
`Terminated` for a cancelled run regardless of exit code, `Completed` for
exit code zero, `Failed{exit code}` otherwise. -/
def terminalEvent : RunOutcome → Event
  | RunOutcome.cancelled => Event.terminated
  | RunOutcome.exited code => if code = 0 then Event.completed else Event.failed code

/-- Modelled from the spec: the events published for one drained
diagnostic line (section 4.4) — `DiagnosticLine{text}` always,
immediately followed by `Progress{sample}` when the line parses as
structured. -/
def lineEvents (l : String) : List Event :=
  Event.diagnosticLine l ::
    (match parseLine l with
     | ProgressSample.structured st => [Event.progress st]
     | ProgressSample.unstructured _ => [])

/-- Modelled from the spec: the full event trace of one run (sections 4.4
and 5) — the supervisor, absent from the repository, publishes `Started`
on spawn, then the per-line events in the order the tool emitted the
lines, then the terminal event. -/
def runTrace (argv : List PyTok) (lines : List String) (oc : RunOutcome) : List Event :=
  Event.started argv :: (lines.flatMap lineEvents ++ [terminalEvent oc])

/-- The per-line events contain no terminal event. -/
theorem lineEvents_no_terminal (l : String) :
    (lineEvents l).countP isTerminal = 0 := by
  unfold lineEvents
  cases parseLine l <;> simp [List.countP_cons, isTerminal]

/-- The drained middle of a trace contains no terminal event. -/
theorem flatMap_lineEvents_no_terminal (lines : List String) :
    (lines.flatMap lineEvents).countP isTerminal = 0 := by
  induction lines with
  | nil => rfl
  | cons a t ih =>
    simp [List.flatMap_cons, List.countP_append, ih, lineEvents_no_terminal a]

/-- The terminal event of every outcome is terminal. -/
theorem terminalEvent_isTerminal (oc : RunOutcome) :
    isTerminal (terminalEvent oc) = true := by
  cases oc with
  | cancelled => rfl
  | exited code =>
    unfold terminalEvent
    by_cases h : code = 0 <;> simp [h, isTerminal]

/-- C8: for every run, the published sequence is `Started` first, then
the `DiagnosticLine`/`Progress` pairs of the drained lines in emission
order, and exactly one terminal event (`Completed`, `Failed`, or
`Terminated`), which is the last event of the run. -/
theorem runTrace_event_order (argv : List PyTok) (lines : List String) (oc : RunOutcome) :
    runTrace argv lines oc =
      Event.started argv :: (lines.flatMap lineEvents ++ [terminalEvent oc]) ∧
    (runTrace argv lines oc).head? = some (Event.started argv) ∧
    (runTrace argv lines oc).countP isTerminal = 1 ∧
    (runTrace argv lines oc).getLast? = some (terminalEvent oc) ∧
    isTerminal (terminalEvent oc) = true ∧
    (lines.flatMap lineEvents).all (fun e => !isTerminal e) = true := by
  refine ⟨rfl, rfl, ?_, ?_, terminalEvent_isTerminal oc, ?_⟩
  · have h1 := flatMap_lineEvents_no_terminal lines
    have h2 := terminalEvent_isTerminal oc
    have h3 : isTerminal (Event.started argv) = false := rfl
    simp [runTrace, List.countP_cons, List.countP_append, h1, h2, h3]
  · unfold runTrace
    rw [← List.cons_append]
    exact List.getLast?_concat _
  · rw [List.all_eq_true]
    intro e he
    have h0 := flatMap_lineEvents_no_terminal lines
    cases hte : isTerminal e with
    | false => simp [hte]
    | true =>
      exfalso
      have hpos : 0 < (lines.flatMap lineEvents).countP isTerminal :=
        List.countP_pos_iff.mpr ⟨e, he, hte⟩
      omega
